import Mathlib

/-!
Verification of the BA_Michael_DL tool scripts.

Shallow embedding of the pure content of the scripts under `Tools/`:
`split_data.py`, `synthetic_data.py`, `draw_bounding_box.py`.
Python floats are modelled as rationals, Python ints as `Int`/`Nat`,
the filesystem as a map from component lists to optional contents.
-/

/-- Python `int()` applied to a (rational-modelled) float: truncation toward zero. -/
def py_int (q : ℚ) : ℤ := if 0 ≤ q then q.floor else q.ceil

/-- Replacement loop for Python `str.replace`: scan left to right, replacing
each non-overlapping occurrence of `pat`.  The fuel argument (the input
length suffices) makes the recursion structural; each step consumes at least
one character when `pat` is nonempty. -/
def replace_go (pat rep : List Char) : ℕ → List Char → List Char
  | _, [] => []
  | 0, s => s
  | fuel + 1, c :: rest =>
    if pat.isPrefixOf (c :: rest) ∧ pat ≠ [] then
      rep ++ replace_go pat rep fuel (List.drop (pat.length - 1) rest)
    else
      c :: replace_go pat rep fuel rest

/-- Python `s.replace(pat, rep)` for a nonempty pattern: all non-overlapping
occurrences of `pat` in `s` are replaced by `rep`, scanning left to right. -/
def str_replace (s pat rep : String) : String :=
  ⟨replace_go pat.data rep.data s.data.length s.data⟩

namespace SplitData

/-- The three destination directory trees created by `split_data`. -/
inductive Partition
  | train
  | valid
  | test
deriving DecidableEq

/-- The destination chosen for the file at index `i` of the shuffled list,
from the if/elif/else chain in `split_data`:
`train` for `i < train_split`, `valid` for `i < train_split + val_split`,
`test` otherwise. -/
def destination (train_split val_split : ℤ) (i : ℕ) : Partition :=
  if (i : ℤ) < train_split then .train
  else if (i : ℤ) < train_split + val_split then .valid
  else .test

/-- The distribution loop `for i, file in enumerate(image_files)`: each file is
copied into the partition chosen by `destination` for its index. -/
def distribute (train_split val_split : ℤ) : ℕ → List α → List α × List α × List α
  | _, [] => ([], [], [])
  | i, f :: rest =>
    let r := distribute train_split val_split (i + 1) rest
    match destination train_split val_split i with
    | .train => (f :: r.1, r.2.1, r.2.2)
    | .valid => (r.1, f :: r.2.1, r.2.2)
    | .test => (r.1, r.2.1, f :: r.2.2)

/-- `split_data` on an already-shuffled list of paired files:
`train_split = int(train_ratio * total_files)`,
`val_split = int(val_ratio * total_files)`, then the distribution loop. -/
def split_data (files : List α) (train_ratio val_ratio : ℚ) :
    List α × List α × List α :=
  distribute (py_int (train_ratio * files.length)) (py_int (val_ratio * files.length)) 0 files

/-- A run of the splitter: `random.shuffle` seeded deterministically is modelled
as an arbitrary function from seed and input list to the shuffled list. -/
def split_run (shuffle : ℕ → List α → List α) (seed : ℕ) (files : List α)
    (train_ratio val_ratio : ℚ) : List α × List α × List α :=
  split_data (shuffle seed files) train_ratio val_ratio

end SplitData

namespace SplitDataFS

/-- A filesystem path, as its list of components. -/
abbrev Path := List String

/-- The filesystem: contents of each existing file. -/
abbrev FS := Path → Option String

/-- `shutil.copyfile(src, dst)`: the destination file gets the source's contents. -/
def copyfile (fs : FS) (src dst : Path) : FS :=
  fun p => if p = dst then fs src else fs p

/-- `file.replace(".jpg", ".txt")`, the paired label file name. -/
def label_name (file : String) : String := str_replace file ".jpg" ".txt"

/-- Name of the partition directory under the root folder. -/
def folder_name : SplitData.Partition → String
  | .train => "train"
  | .valid => "valid"
  | .test => "test"

/-- One iteration of the distribution loop: copy the image file and its label
file from the source directories into the chosen partition tree. -/
def copy_pair (root dest file : String) (fs : FS) : FS :=
  let fs1 := copyfile fs [root, "images", file] [root, dest, "images", file]
  copyfile fs1 [root, "labels", label_name file] [root, dest, "labels", label_name file]

/-- The filesystem effect of `split_data`'s distribution loop, starting at
index `i` of the shuffled file list. -/
def split_data_fs (root : String) (train_split val_split : ℤ) :
    ℕ → List String → FS → FS
  | _, [], fs => fs
  | i, f :: rest, fs =>
    split_data_fs root train_split val_split (i + 1) rest
      (copy_pair root (folder_name (SplitData.destination train_split val_split i)) f fs)

end SplitDataFS

namespace DrawBoundingBox

/-- The rectangle corners computed by `draw_boxes` for one label line on an
image of size `img_width × img_height`:
pixel coordinates by `int()` of the scaled normalized values, then corners
`(x_pixel ∓ width_pixel // 2, y_pixel ∓ height_pixel // 2)`
(Python `//` is floor division). -/
def draw_boxes_rect (img_width img_height : ℕ) (x y width height : ℚ) :
    (ℤ × ℤ) × (ℤ × ℤ) :=
  let x_pixel := py_int (x * img_width)
  let y_pixel := py_int (y * img_height)
  let width_pixel := py_int (width * img_width)
  let height_pixel := py_int (height * img_height)
  ((x_pixel - width_pixel.fdiv 2, y_pixel - height_pixel.fdiv 2),
   (x_pixel + width_pixel.fdiv 2, y_pixel + height_pixel.fdiv 2))

end DrawBoundingBox

namespace SyntheticData

/-- `rotation_matrix_x` from `generate_random_rotation_matrix`, with the cosine
and sine of the x angle as parameters. -/
def rotation_matrix_x (c s : ℚ) : Matrix (Fin 4) (Fin 4) ℚ :=
  !![1, 0, 0, 0;
     0, c, -s, 0;
     0, s, c, 0;
     0, 0, 0, 1]

/-- `rotation_matrix_y`, with the cosine and sine of the y angle as parameters. -/
def rotation_matrix_y (c s : ℚ) : Matrix (Fin 4) (Fin 4) ℚ :=
  !![c, 0, s, 0;
     0, 1, 0, 0;
     -s, 0, c, 0;
     0, 0, 0, 1]

/-- `rotation_matrix_z`, with the cosine and sine of the z angle as parameters. -/
def rotation_matrix_z (c s : ℚ) : Matrix (Fin 4) (Fin 4) ℚ :=
  !![c, -s, 0, 0;
     s, c, 0, 0;
     0, 0, 1, 0;
     0, 0, 0, 1]

/-- `np.dot(rotation_matrix_z, np.dot(rotation_matrix_y, rotation_matrix_x))`:
the final rotation matrix returned by `generate_random_rotation_matrix`. -/
def generate_random_rotation_matrix (cx sx cy sy cz sz : ℚ) :
    Matrix (Fin 4) (Fin 4) ℚ :=
  rotation_matrix_z cz sz * (rotation_matrix_y cy sy * rotation_matrix_x cx sx)

/-- The upper-left 3×3 block of a 4×4 homogeneous transform. -/
def upper_left3 (M : Matrix (Fin 4) (Fin 4) ℚ) : Matrix (Fin 3) (Fin 3) ℚ :=
  fun i j => M i.castSucc j.castSucc

/-- The 3×3 rotation block about the x axis. -/
def rx3 (c s : ℚ) : Matrix (Fin 3) (Fin 3) ℚ := !![1, 0, 0; 0, c, -s; 0, s, c]

/-- The 3×3 rotation block about the y axis. -/
def ry3 (c s : ℚ) : Matrix (Fin 3) (Fin 3) ℚ := !![c, 0, s; 0, 1, 0; -s, 0, c]

/-- The 3×3 rotation block about the z axis. -/
def rz3 (c s : ℚ) : Matrix (Fin 3) (Fin 3) ℚ := !![c, -s, 0; s, c, 0; 0, 0, 1]

/-- The running sums `avg_width += scaled_width; avg_height += scaled_height`
over the STL render loop.  Each list entry is one mesh: `some (w, h)` when the
mesh rendered with scaled size `(w, h)`, `none` when an exception was raised
before the size accumulation (the mesh is skipped by `continue`). -/
def render_sums : List (Option (ℕ × ℕ)) → ℕ × ℕ
  | [] => (0, 0)
  | none :: rest => render_sums rest
  | some (w, h) :: rest => ((render_sums rest).1 + w, (render_sums rest).2 + h)

/-- `avg_width = int(avg_width / (j + 1) / 2)` where `j` is the last index of
the loop over `stl_files`, so `j + 1` is the total number of STL files. -/
def avg_width (outcomes : List (Option (ℕ × ℕ))) : ℕ :=
  (py_int (((render_sums outcomes).1 : ℚ) / (outcomes.length : ℚ) / 2)).toNat

/-- `avg_height = int(avg_height / (j + 1) / 2)`. -/
def avg_height (outcomes : List (Option (ℕ × ℕ))) : ℕ :=
  (py_int (((render_sums outcomes).2 : ℚ) / (outcomes.length : ℚ) / 2)).toNat

/-- The spec's claimed average: the sum over the successfully rendered meshes
divided by the number of successful meshes only, halved. -/
def avg_width_spec (outcomes : List (Option (ℕ × ℕ))) : ℕ :=
  (render_sums outcomes).1 / (2 * (outcomes.filterMap id).length)

/-- `grid_horisontal = int(bg_width / avg_width)` (name as misspelled in the source). -/
def grid_horisontal (bg_width aw : ℕ) : ℕ :=
  (py_int ((bg_width : ℚ) / (aw : ℚ))).toNat

/-- `grid_vertical = int(bg_height / avg_height)`. -/
def grid_vertical (bg_height ah : ℕ) : ℕ :=
  (py_int ((bg_height : ℚ) / (ah : ℚ))).toNat

/-- The nested position loop: for `v` in `range(grid_vertical)`, for `h` in
`range(grid_horisontal)`, append `(int(avg_width/2) + h*avg_width,
int(avg_height/2) + v*avg_height)` to `matrix`. -/
def grid_positions (bg_width bg_height aw ah : ℕ) : List (ℕ × ℕ) :=
  (List.range (grid_vertical bg_height ah)).flatMap fun v =>
    (List.range (grid_horisontal bg_width aw)).map fun h =>
      (aw / 2 + h * aw, ah / 2 + v * ah)

/-- One line of a label file, with the four numeric fields it carries. -/
structure LabelLine where
  class_id : String
  x_center : ℚ
  y_center : ℚ
  width : ℚ
  height : ℚ
deriving DecidableEq

/-- `create_label_file`: append one line with the coordinates and dimensions
normalized by the background dimensions. -/
def create_label_file (labels : List LabelLine) (class_id : String)
    (x_center y_center width height : ℚ) (bg_width bg_height : ℕ) :
    List LabelLine :=
  labels ++ [⟨class_id, x_center / bg_width, y_center / bg_height,
             width / bg_width, height / bg_height⟩]

/-- A label line whose center coordinates are normalized into [0,1] and whose
width and height fields are nonnegative (the spec's range invariant, weakened
on width/height). -/
def label_in_range (lab : LabelLine) : Prop :=
  0 ≤ lab.x_center ∧ lab.x_center ≤ 1 ∧ 0 ≤ lab.y_center ∧ lab.y_center ≤ 1
    ∧ 0 ≤ lab.width ∧ 0 ≤ lab.height

/-- `f'{temp_folder}/{j}.png'`: the file name of the raster rendered
from mesh number `j` (basename only). -/
def raster_filename (j : ℕ) : String := toString j ++ ".png"

/-- `class_id = file_name.replace(".png", "")`. -/
def class_id_of (file_name : String) : String := str_replace file_name ".png" ""

/-- The base name of a file with its extension stripped (the spec's notion of
the class identifier derived from a mesh file name). -/
def file_stem (s : String) : String := String.mk (s.data.takeWhile (fun c => c != '.'))

/-- A rendered raster in the temp folder: its file name and pixel size. -/
structure Raster where
  name : String
  width : ℕ
  height : ℕ
deriving DecidableEq

/-- The state threaded through the compositing loop over one background image:
the temp folder contents, the label lines written so far, the remaining
position matrix, the cells consumed so far, and the number of logged errors. -/
structure PlaceState where
  temp : List String
  labels : List LabelLine
  matrix : List (ℕ × ℕ)
  placed : List (ℕ × ℕ)
  errors : ℕ
deriving DecidableEq

/-- One iteration of the compositing loop for raster `r`:
`fail = true` models an exception raised in the fallible prefix (opening,
pasting, saving, or writing the label); `np.random.randint(0, len(matrix))`
raises when the matrix is empty, and otherwise returns a value in
`[0, len(matrix))`, modelled as `rand % matrix.length`.  In both the success
branch and the `except` branch the temp raster file is removed; the except
branch logs the error and leaves labels and matrix unchanged. -/
def place_step (bg_width bg_height : ℕ) (r : Raster) (rand : ℕ) (fail : Bool)
    (st : PlaceState) : PlaceState :=
  if fail = true ∨ st.matrix = [] then
    { st with temp := st.temp.erase r.name, errors := st.errors + 1 }
  else
    let idx := rand % st.matrix.length
    let random_position := st.matrix.getD idx (0, 0)
    { temp := st.temp.erase r.name
      labels := create_label_file st.labels (class_id_of r.name)
        (random_position.1 : ℚ) (random_position.2 : ℚ)
        ((r.width : ℚ) / 2) ((r.width : ℚ) / 2) bg_width bg_height
      matrix := st.matrix.eraseIdx idx
      placed := st.placed ++ [random_position]
      errors := st.errors }

/-- The loop `for x, screenshot_path in enumerate(os.listdir(temp_folder))`:
each raster is processed by `place_step` and the loop continues with the next
raster in every case. -/
def place_all (bg_width bg_height : ℕ) :
    List (Raster × ℕ × Bool) → PlaceState → PlaceState
  | [], st => st
  | (r, rand, fail) :: rest, st =>
    place_all bg_width bg_height rest (place_step bg_width bg_height r rand fail st)

/-- The initial state of the compositing loop for one background image. -/
def init_state (temp : List String) (matrix : List (ℕ × ℕ)) : PlaceState :=
  { temp := temp, labels := [], matrix := matrix, placed := [], errors := 0 }

end SyntheticData

theorem rat_floor_eq_int_floor (q : ℚ) : q.floor = ⌊q⌋ := rfl

theorem py_int_of_nonneg {q : ℚ} (h : 0 ≤ q) : py_int q = ⌊q⌋ := by
  simp [py_int, h, rat_floor_eq_int_floor]

namespace SyntheticData

theorem castSucc_zero4 : Fin.castSucc (0 : Fin 3) = (0 : Fin 4) := rfl

theorem castSucc_one4 : Fin.castSucc (1 : Fin 3) = (1 : Fin 4) := rfl

theorem castSucc_two4 : Fin.castSucc (2 : Fin 3) = (2 : Fin 4) := rfl

theorem upper_left3_gen (cx sx cy sy cz sz : ℚ) :
    upper_left3 (generate_random_rotation_matrix cx sx cy sy cz sz)
      = rz3 cz sz * (ry3 cy sy * rx3 cx sx) := by
  ext i j
  fin_cases i <;> fin_cases j <;>
    simp [generate_random_rotation_matrix, rotation_matrix_x, rotation_matrix_y,
      rotation_matrix_z, rx3, ry3, rz3, upper_left3, Matrix.mul_apply,
      Fin.sum_univ_four, Fin.sum_univ_three, castSucc_zero4, castSucc_one4,
      castSucc_two4, Matrix.cons_val_two, Matrix.cons_val_three]

theorem orth_mul {A B : Matrix (Fin 3) (Fin 3) ℚ}
    (hA : A * A.transpose = 1) (hB : B * B.transpose = 1) : (A * B) * (A * B).transpose = 1 := by
  rw [Matrix.transpose_mul, mul_assoc, ← mul_assoc B, hB, one_mul, hA]

theorem rx3_transpose (c s : ℚ) :
    (rx3 c s).transpose = !![1, 0, 0; 0, c, s; 0, -s, c] := by
  ext i j
  fin_cases i <;> fin_cases j <;> rfl

theorem ry3_transpose (c s : ℚ) :
    (ry3 c s).transpose = !![c, 0, -s; 0, 1, 0; s, 0, c] := by
  ext i j
  fin_cases i <;> fin_cases j <;> rfl

theorem rz3_transpose (c s : ℚ) :
    (rz3 c s).transpose = !![c, s, 0; -s, c, 0; 0, 0, 1] := by
  ext i j
  fin_cases i <;> fin_cases j <;> rfl

theorem rx3_orth {c s : ℚ} (h : c ^ 2 + s ^ 2 = 1) : rx3 c s * (rx3 c s).transpose = 1 := by
  rw [rx3_transpose, rx3, Matrix.mul_fin_three, Matrix.one_fin_three]
  ext i j
  fin_cases i <;> fin_cases j <;>
    simp [Matrix.cons_val_two, Matrix.cons_val_three, Matrix.vecHead,
      Matrix.vecTail] <;>
      first
        | ring1
        | linear_combination h

theorem ry3_orth {c s : ℚ} (h : c ^ 2 + s ^ 2 = 1) : ry3 c s * (ry3 c s).transpose = 1 := by
  rw [ry3_transpose, ry3, Matrix.mul_fin_three, Matrix.one_fin_three]
  ext i j
  fin_cases i <;> fin_cases j <;>
    simp [Matrix.cons_val_two, Matrix.cons_val_three, Matrix.vecHead,
      Matrix.vecTail] <;>
      first
        | ring1
        | linear_combination h

theorem rz3_orth {c s : ℚ} (h : c ^ 2 + s ^ 2 = 1) : rz3 c s * (rz3 c s).transpose = 1 := by
  rw [rz3_transpose, rz3, Matrix.mul_fin_three, Matrix.one_fin_three]
  ext i j
  fin_cases i <;> fin_cases j <;>
    simp [Matrix.cons_val_two, Matrix.cons_val_three, Matrix.vecHead,
      Matrix.vecTail] <;>
      first
        | ring1
        | linear_combination h

theorem rx3_det {c s : ℚ} (h : c ^ 2 + s ^ 2 = 1) : (rx3 c s).det = 1 := by
  simp [rx3, Matrix.det_fin_three]
  linear_combination h

theorem ry3_det {c s : ℚ} (h : c ^ 2 + s ^ 2 = 1) : (ry3 c s).det = 1 := by
  simp [ry3, Matrix.det_fin_three]
  linear_combination h

theorem rz3_det {c s : ℚ} (h : c ^ 2 + s ^ 2 = 1) : (rz3 c s).det = 1 := by
  simp [rz3, Matrix.det_fin_three]
  linear_combination h

end SyntheticData

/-- C3: for any draw of the random angles (modelled by the cosine/sine pairs of
the three angles, constrained to the unit circle), the matrix returned by
`generate_random_rotation_matrix` is the product Rz * Ry * Rx (z applied
last), and its upper-left 3×3 block is orthogonal with determinant 1. -/
theorem C3_rotation_matrix (cx sx cy sy cz sz : ℚ)
    (hx : cx ^ 2 + sx ^ 2 = 1) (hy : cy ^ 2 + sy ^ 2 = 1)
    (hz : cz ^ 2 + sz ^ 2 = 1) :
    SyntheticData.generate_random_rotation_matrix cx sx cy sy cz sz
        = SyntheticData.rotation_matrix_z cz sz * SyntheticData.rotation_matrix_y cy sy
          * SyntheticData.rotation_matrix_x cx sx
      ∧ SyntheticData.upper_left3 (SyntheticData.generate_random_rotation_matrix cx sx cy sy cz sz)
          * (SyntheticData.upper_left3 (SyntheticData.generate_random_rotation_matrix cx sx cy sy cz sz)).transpose = 1
      ∧ (SyntheticData.upper_left3 (SyntheticData.generate_random_rotation_matrix cx sx cy sy cz sz)).det = 1 := by
  refine ⟨(mul_assoc _ _ _).symm, ?_, ?_⟩
  · rw [SyntheticData.upper_left3_gen]
    exact SyntheticData.orth_mul (SyntheticData.rz3_orth hz)
      (SyntheticData.orth_mul (SyntheticData.ry3_orth hy) (SyntheticData.rx3_orth hx))
  · rw [SyntheticData.upper_left3_gen, Matrix.det_mul, Matrix.det_mul,
      SyntheticData.rz3_det hz, SyntheticData.ry3_det hy, SyntheticData.rx3_det hx]
    norm_num

/-- Witness for C3 at the concrete unit-circle points (3/5, 4/5), (5/13, 12/13)
and (1, 0). -/
theorem C3_rotation_matrix_witness :
    ((3/5 : ℚ) ^ 2 + (4/5 : ℚ) ^ 2 = 1)
      ∧ ((5/13 : ℚ) ^ 2 + (12/13 : ℚ) ^ 2 = 1)
      ∧ ((1 : ℚ) ^ 2 + (0 : ℚ) ^ 2 = 1)
      ∧ (SyntheticData.generate_random_rotation_matrix (3/5) (4/5) (5/13) (12/13) 1 0
            = SyntheticData.rotation_matrix_z 1 0 * SyntheticData.rotation_matrix_y (5/13) (12/13)
              * SyntheticData.rotation_matrix_x (3/5) (4/5)
          ∧ SyntheticData.upper_left3 (SyntheticData.generate_random_rotation_matrix (3/5) (4/5) (5/13) (12/13) 1 0)
              * (SyntheticData.upper_left3 (SyntheticData.generate_random_rotation_matrix (3/5) (4/5) (5/13) (12/13) 1 0)).transpose = 1
          ∧ (SyntheticData.upper_left3 (SyntheticData.generate_random_rotation_matrix (3/5) (4/5) (5/13) (12/13) 1 0)).det = 1) :=
  ⟨by norm_num, by norm_num, by norm_num,
    C3_rotation_matrix (3/5) (4/5) (5/13) (12/13) 1 0
      (by norm_num) (by norm_num) (by norm_num)⟩

theorem draw_boxes_rect_eval :
    DrawBoundingBox.draw_boxes_rect 100 100 (1/2) (1/2) (1/5) (1/5)
      = ((40, 40), (60, 60)) := by
  norm_num [DrawBoundingBox.draw_boxes_rect, py_int, rat_floor_eq_int_floor]
  decide

/-- C7 counterexample: on a 100×100 image with label line `0 0.5 0.5 0.2 0.2`
the drawn rectangle does not span approximately 40×40 pixels (within ±1):
its corners are (40,40) and (60,60), an extent of 20×20. -/
theorem C7_draw_box_counterexample :
    ¬ (39 ≤ (DrawBoundingBox.draw_boxes_rect 100 100 (1/2) (1/2) (1/5) (1/5)).2.1
          - (DrawBoundingBox.draw_boxes_rect 100 100 (1/2) (1/2) (1/5) (1/5)).1.1
        ∧ (DrawBoundingBox.draw_boxes_rect 100 100 (1/2) (1/2) (1/5) (1/5)).2.1
          - (DrawBoundingBox.draw_boxes_rect 100 100 (1/2) (1/2) (1/5) (1/5)).1.1 ≤ 41
        ∧ 39 ≤ (DrawBoundingBox.draw_boxes_rect 100 100 (1/2) (1/2) (1/5) (1/5)).2.2
          - (DrawBoundingBox.draw_boxes_rect 100 100 (1/2) (1/2) (1/5) (1/5)).1.2
        ∧ (DrawBoundingBox.draw_boxes_rect 100 100 (1/2) (1/2) (1/5) (1/5)).2.2
          - (DrawBoundingBox.draw_boxes_rect 100 100 (1/2) (1/2) (1/5) (1/5)).1.2 ≤ 41) := by
  rw [draw_boxes_rect_eval]
  decide

/-- C7 (amended): on a 100×100 image the label line `0 0.5 0.5 0.2 0.2` yields
a rectangle with corners (40,40) and (60,60): centered at pixel (50,50) and
spanning 20×20 pixels (the normalized width 0.2 maps to 20 pixels). -/
theorem C7_draw_box :
    DrawBoundingBox.draw_boxes_rect 100 100 (1/2) (1/2) (1/5) (1/5) = ((40, 40), (60, 60))
      ∧ (DrawBoundingBox.draw_boxes_rect 100 100 (1/2) (1/2) (1/5) (1/5)).1.1
          + (DrawBoundingBox.draw_boxes_rect 100 100 (1/2) (1/2) (1/5) (1/5)).2.1 = 2 * 50
      ∧ (DrawBoundingBox.draw_boxes_rect 100 100 (1/2) (1/2) (1/5) (1/5)).1.2
          + (DrawBoundingBox.draw_boxes_rect 100 100 (1/2) (1/2) (1/5) (1/5)).2.2 = 2 * 50
      ∧ (DrawBoundingBox.draw_boxes_rect 100 100 (1/2) (1/2) (1/5) (1/5)).2.1
          - (DrawBoundingBox.draw_boxes_rect 100 100 (1/2) (1/2) (1/5) (1/5)).1.1 = 20
      ∧ (DrawBoundingBox.draw_boxes_rect 100 100 (1/2) (1/2) (1/5) (1/5)).2.2
          - (DrawBoundingBox.draw_boxes_rect 100 100 (1/2) (1/2) (1/5) (1/5)).1.2 = 20 := by
  rw [draw_boxes_rect_eval]
  refine ⟨rfl, by decide, by decide, by decide, by decide⟩

namespace SplitData

theorem distribute_fst_length (ts vs : ℤ) (l : List α) :
    ∀ i : ℕ, ((distribute ts vs i l).1).length = min (ts - i).toNat l.length := by
  induction l with
  | nil => intro i; simp [distribute]
  | cons f rest IH =>
    intro i
    by_cases hi : (i : ℤ) < ts
    · simp only [distribute, destination, if_pos hi, List.length_cons, IH]
      omega
    · by_cases hi2 : (i : ℤ) < ts + vs
      · simp only [distribute, destination, if_neg hi, if_pos hi2, IH]
        omega
      · simp only [distribute, destination, if_neg hi, if_neg hi2, IH]
        omega

theorem distribute_fst_snd_length (ts vs : ℤ) (hvs : 0 ≤ vs) (l : List α) :
    ∀ i : ℕ, ((distribute ts vs i l).1).length + ((distribute ts vs i l).2.1).length
      = min (ts + vs - i).toNat l.length := by
  induction l with
  | nil => intro i; simp [distribute]
  | cons f rest IH =>
    intro i
    have h := IH (i + 1)
    by_cases hi : (i : ℤ) < ts
    · simp only [distribute, destination, if_pos hi, List.length_cons]
      omega
    · by_cases hi2 : (i : ℤ) < ts + vs
      · simp only [distribute, destination, if_neg hi, if_pos hi2, List.length_cons]
        omega
      · simp only [distribute, destination, if_neg hi, if_neg hi2]
        omega

theorem distribute_perm (ts vs : ℤ) (l : List α) :
    ∀ i : ℕ, ((distribute ts vs i l).1
      ++ ((distribute ts vs i l).2.1 ++ (distribute ts vs i l).2.2)).Perm l := by
  induction l with
  | nil => intro i; simp [distribute]
  | cons f rest IH =>
    intro i
    by_cases hi : (i : ℤ) < ts
    · simpa only [distribute, destination, if_pos hi, List.cons_append]
        using (IH (i + 1)).cons f
    · by_cases hi2 : (i : ℤ) < ts + vs
      · simp only [distribute, destination, if_neg hi, if_pos hi2, List.cons_append]
        exact List.perm_middle.trans ((IH (i + 1)).cons f)
      · simp only [distribute, destination, if_neg hi, if_neg hi2]
        refine (List.Perm.append_left _ List.perm_middle).trans ?_
        exact List.perm_middle.trans ((IH (i + 1)).cons f)

end SplitData

/-- C2 (amended): for ratios with `0 ≤ train_ratio`, `0 ≤ val_ratio` and
`train_ratio + val_ratio ≤ 1`, `split_data` on `N` paired files places
`floor(N*train_ratio)` pairs in train, `floor(N*val_ratio)` pairs in valid,
and the remaining pairs in test, and the three partitions together are a
permutation of the input (every paired file lands in exactly one partition). -/
theorem C2_split_counts {α : Type} (files : List α) (tr vr : ℚ)
    (htr : 0 ≤ tr) (hvr : 0 ≤ vr) (hsum : tr + vr ≤ 1) :
    ((((SplitData.split_data files tr vr).1).length : ℤ) = ⌊tr * (files.length : ℚ)⌋
      ∧ (((SplitData.split_data files tr vr).2.1).length : ℤ) = ⌊vr * (files.length : ℚ)⌋
      ∧ (((SplitData.split_data files tr vr).2.2).length : ℤ)
          = (files.length : ℤ) - ⌊tr * (files.length : ℚ)⌋ - ⌊vr * (files.length : ℚ)⌋)
    ∧ ((SplitData.split_data files tr vr).1
        ++ ((SplitData.split_data files tr vr).2.1
          ++ (SplitData.split_data files tr vr).2.2)).Perm files := by
  have hN : (0 : ℚ) ≤ (files.length : ℚ) := by positivity
  have hts : py_int (tr * (files.length : ℚ)) = ⌊tr * (files.length : ℚ)⌋ :=
    py_int_of_nonneg (mul_nonneg htr hN)
  have hvs : py_int (vr * (files.length : ℚ)) = ⌊vr * (files.length : ℚ)⌋ :=
    py_int_of_nonneg (mul_nonneg hvr hN)
  set ts := ⌊tr * (files.length : ℚ)⌋ with hts_def
  set vs := ⌊vr * (files.length : ℚ)⌋ with hvs_def
  have hts0 : 0 ≤ ts := Int.floor_nonneg.2 (mul_nonneg htr hN)
  have hvs0 : 0 ≤ vs := Int.floor_nonneg.2 (mul_nonneg hvr hN)
  have hsumN : ((ts + vs : ℤ) : ℚ) ≤ (files.length : ℚ) := by
    push_cast
    calc ((ts : ℚ) + (vs : ℚ))
        ≤ tr * (files.length : ℚ) + vr * (files.length : ℚ) :=
          add_le_add (Int.floor_le _) (Int.floor_le _)
      _ = (tr + vr) * (files.length : ℚ) := by ring
      _ ≤ 1 * (files.length : ℚ) := by
          exact mul_le_mul_of_nonneg_right hsum hN
      _ = (files.length : ℚ) := one_mul _
  have hsum_le : ts + vs ≤ (files.length : ℤ) := by exact_mod_cast hsumN
  have h1 := SplitData.distribute_fst_length ts vs files 0
  have h2 := SplitData.distribute_fst_snd_length ts vs hvs0 files 0
  have hperm := SplitData.distribute_perm ts vs files 0
  have hsd : SplitData.split_data files tr vr = SplitData.distribute ts vs 0 files := by
    rw [SplitData.split_data, hts, hvs]
  rw [hsd]
  refine ⟨⟨?_, ?_, ?_⟩, hperm⟩
  · omega
  · omega
  · have h3 := hperm.length_eq
    simp only [List.length_append] at h3
    omega

/-- Witness for C2 at `files = range 10`, `train_ratio = 1/2`,
`val_ratio = 1/4`. -/
theorem C2_split_counts_witness :
    (0 : ℚ) ≤ 1/2 ∧ (0 : ℚ) ≤ 1/4 ∧ (1/2 : ℚ) + 1/4 ≤ 1
    ∧ (((((SplitData.split_data (List.range 10) (1/2) (1/4)).1).length : ℤ)
            = ⌊(1/2 : ℚ) * ((List.range 10).length : ℚ)⌋
        ∧ (((SplitData.split_data (List.range 10) (1/2) (1/4)).2.1).length : ℤ)
            = ⌊(1/4 : ℚ) * ((List.range 10).length : ℚ)⌋
        ∧ (((SplitData.split_data (List.range 10) (1/2) (1/4)).2.2).length : ℤ)
            = ((List.range 10).length : ℤ) - ⌊(1/2 : ℚ) * ((List.range 10).length : ℚ)⌋
              - ⌊(1/4 : ℚ) * ((List.range 10).length : ℚ)⌋)
      ∧ ((SplitData.split_data (List.range 10) (1/2) (1/4)).1
          ++ ((SplitData.split_data (List.range 10) (1/2) (1/4)).2.1
            ++ (SplitData.split_data (List.range 10) (1/2) (1/4)).2.2)).Perm (List.range 10)) :=
  ⟨by norm_num, by norm_num, by norm_num,
    C2_split_counts (List.range 10) (1/2) (1/4) (by norm_num) (by norm_num) (by norm_num)⟩

/-- C2 counterexample: for the ratio pair (4/5, 1/2) on 10 paired files the
valid partition receives 2 pairs, not `floor(10 * 1/2) = 5`: the claim fails
for ratio pairs summing to more than 1. -/
theorem C2_split_counts_counterexample :
    ((SplitData.split_data (List.range 10) (4/5) (1/2)).2.1).length = 2
    ∧ ⌊(1/2 : ℚ) * ((List.range 10).length : ℚ)⌋ = 5
    ∧ ¬ ((((SplitData.split_data (List.range 10) (4/5) (1/2)).2.1).length : ℤ)
          = ⌊(1/2 : ℚ) * ((List.range 10).length : ℚ)⌋) := by
  have hts : py_int ((4/5 : ℚ) * ((List.range 10).length : ℚ)) = 8 := by
    norm_num [py_int, rat_floor_eq_int_floor]
  have hvs : py_int ((1/2 : ℚ) * ((List.range 10).length : ℚ)) = 5 := by
    norm_num [py_int, rat_floor_eq_int_floor]
  have hsd : SplitData.split_data (List.range 10) (4/5) (1/2)
      = SplitData.distribute 8 5 0 (List.range 10) := by
    rw [SplitData.split_data, hts, hvs]
  have hfl : ⌊(1/2 : ℚ) * ((List.range 10).length : ℚ)⌋ = 5 := by
    norm_num
  refine ⟨?_, hfl, ?_⟩
  · rw [hsd]
    decide
  · rw [hsd, hfl]
    decide

/-- C9: two runs of the splitter whose (seeded) shuffles return the same
shuffled list produce identical train/valid/test partitions: the partition
assignment is a deterministic function of the shuffled file order and the
ratios. -/
theorem C9_split_deterministic {α : Type} (sh1 sh2 : ℕ → List α → List α)
    (seed1 seed2 : ℕ) (files : List α) (tr vr : ℚ)
    (h : sh1 seed1 files = sh2 seed2 files) :
    SplitData.split_run sh1 seed1 files tr vr = SplitData.split_run sh2 seed2 files tr vr := by
  rw [SplitData.split_run, SplitData.split_run, h]

/-- Witness for C9 with the identity shuffle on a two-element list. -/
theorem C9_split_deterministic_witness :
    (fun (_ : ℕ) (l : List ℕ) => l) 0 [3, 7] = (fun (_ : ℕ) (l : List ℕ) => l) 1 [3, 7]
    ∧ SplitData.split_run (fun _ l => l) 0 [3, 7] (1/2) (1/4)
        = SplitData.split_run (fun _ l => l) 1 [3, 7] (1/2) (1/4) :=
  ⟨rfl, C9_split_deterministic (fun _ l => l) (fun _ l => l) 0 1 [3, 7] (1/2) (1/4) rfl⟩

namespace SplitDataFS

theorem copy_pair_preserves (root dest file : String) (fs : FS) (p : Path)
    (hp : p.length = 3) : copy_pair root dest file fs p = fs p := by
  have h1 : p ≠ [root, dest, "images", file] := by
    intro e
    rw [e] at hp
    simp at hp
  have h2 : p ≠ [root, dest, "labels", label_name file] := by
    intro e
    rw [e] at hp
    simp at hp
  simp [copy_pair, copyfile, h1, h2]

theorem split_data_fs_preserves (root : String) (ts vs : ℤ) (files : List String) :
    ∀ (i : ℕ) (fs : FS) (p : Path), p.length = 3 →
      split_data_fs root ts vs i files fs p = fs p := by
  induction files with
  | nil => intro i fs p _; rfl
  | cons f rest IH =>
    intro i fs p hp
    rw [split_data_fs, IH (i + 1) _ p hp, copy_pair_preserves _ _ _ _ _ hp]

end SplitDataFS

/-- C10: `split_data` never modifies or removes the source files: after the
distribution loop, every file in the input `images` and `labels` directories
has unchanged contents, because files are copied (not moved) into the
train/valid/test trees, whose paths are one component deeper. -/
theorem C10_split_copies_preserve_sources (root : String) (ts vs : ℤ)
    (files : List String) (i : ℕ) (fs : SplitDataFS.FS) (f : String) :
    SplitDataFS.split_data_fs root ts vs i files fs [root, "images", f]
        = fs [root, "images", f]
    ∧ SplitDataFS.split_data_fs root ts vs i files fs [root, "labels", f]
        = fs [root, "labels", f] :=
  ⟨SplitDataFS.split_data_fs_preserves root ts vs files i fs [root, "images", f] rfl,
    SplitDataFS.split_data_fs_preserves root ts vs files i fs [root, "labels", f] rfl⟩

namespace SyntheticData

theorem py_int_natCast_div (a b : ℕ) :
    py_int ((a : ℚ) / (b : ℚ)) = ((a / b : ℕ) : ℤ) := by
  have h0 : (0 : ℚ) ≤ (a : ℚ) / (b : ℚ) := by positivity
  rw [py_int_of_nonneg h0]
  have h1 : ((a : ℚ) / (b : ℚ)) = (((a : ℤ) : ℚ) / ((b : ℕ) : ℚ)) := by push_cast; ring
  rw [h1, Rat.floor_intCast_div_natCast, Int.natCast_div]

theorem avg_width_eq (outcomes : List (Option (ℕ × ℕ))) :
    avg_width outcomes = (render_sums outcomes).1 / (2 * outcomes.length) := by
  rw [avg_width]
  have h : ((render_sums outcomes).1 : ℚ) / (outcomes.length : ℚ) / 2
      = ((render_sums outcomes).1 : ℚ) / ((outcomes.length * 2 : ℕ) : ℚ) := by
    push_cast
    rw [div_div]
  rw [h, py_int_natCast_div, Int.toNat_natCast, Nat.mul_comm]

theorem avg_height_eq (outcomes : List (Option (ℕ × ℕ))) :
    avg_height outcomes = (render_sums outcomes).2 / (2 * outcomes.length) := by
  rw [avg_height]
  have h : ((render_sums outcomes).2 : ℚ) / (outcomes.length : ℚ) / 2
      = ((render_sums outcomes).2 : ℚ) / ((outcomes.length * 2 : ℕ) : ℚ) := by
    push_cast
    rw [div_div]
  rw [h, py_int_natCast_div, Int.toNat_natCast, Nat.mul_comm]

theorem grid_horisontal_eq (bg_width aw : ℕ) :
    grid_horisontal bg_width aw = bg_width / aw := by
  rw [grid_horisontal, py_int_natCast_div, Int.toNat_natCast]

theorem grid_vertical_eq (bg_height ah : ℕ) :
    grid_vertical bg_height ah = bg_height / ah := by
  rw [grid_vertical, py_int_natCast_div, Int.toNat_natCast]

theorem grid_positions_length (bg_width bg_height aw ah : ℕ) :
    (grid_positions bg_width bg_height aw ah).length
      = grid_horisontal bg_width aw * grid_vertical bg_height ah := by
  simp [grid_positions, Function.comp_def, List.length_map, List.length_range,
    List.map_const', List.sum_replicate, smul_eq_mul, Nat.mul_comm]

theorem mem_grid_positions {bg_width bg_height aw ah : ℕ} {p : ℕ × ℕ} :
    p ∈ grid_positions bg_width bg_height aw ah
      ↔ ∃ v < grid_vertical bg_height ah, ∃ h < grid_horisontal bg_width aw,
          p = (aw / 2 + h * aw, ah / 2 + v * ah) := by
  simp only [grid_positions, List.mem_flatMap, List.mem_map, List.mem_range]
  constructor
  · rintro ⟨v, hv, h, hh, rfl⟩
    exact ⟨v, hv, h, hh, rfl⟩
  · rintro ⟨v, hv, h, hh, rfl⟩
    exact ⟨v, hv, h, hh, rfl⟩

theorem grid_positions_nodup (bg_width bg_height : ℕ) {aw ah : ℕ}
    (haw : 0 < aw) (hah : 0 < ah) :
    (grid_positions bg_width bg_height aw ah).Nodup := by
  rw [grid_positions, List.nodup_flatMap]
  constructor
  · intro v _
    refine (List.nodup_range _).map ?_
    intro h1 h2 he
    have : h1 * aw = h2 * aw := by
      have := congrArg Prod.fst he
      simpa using this
    exact Nat.eq_of_mul_eq_mul_right haw this
  · refine (List.pairwise_lt_range _).imp ?_
    intro v1 v2 hlt
    simp only [Function.onFun, List.disjoint_left, List.mem_map, List.mem_range]
    rintro p ⟨h1, _, rfl⟩ ⟨h2, _, he⟩
    have : ah / 2 + v2 * ah = ah / 2 + v1 * ah := congrArg Prod.snd he
    have hv : v2 * ah = v1 * ah := by omega
    have := Nat.eq_of_mul_eq_mul_right hah hv
    omega

theorem grid_positions_bounds {bg_width bg_height aw ah : ℕ}
    (haw : 0 < aw) (hah : 0 < ah) {p : ℕ × ℕ}
    (hp : p ∈ grid_positions bg_width bg_height aw ah) :
    p.1 < bg_width ∧ p.2 < bg_height := by
  rcases mem_grid_positions.1 hp with ⟨v, hv, h, hh, rfl⟩
  rw [grid_horisontal_eq] at hh
  rw [grid_vertical_eq] at hv
  constructor
  · have h1 : aw / 2 < aw := Nat.div_lt_self haw one_lt_two
    have h2 : (h + 1) * aw ≤ (bg_width / aw) * aw :=
      Nat.mul_le_mul_right aw hh
    have h3 : (bg_width / aw) * aw ≤ bg_width := Nat.div_mul_le_self bg_width aw
    have h4 : (h + 1) * aw = h * aw + aw := by ring
    simp only []
    omega
  · have h1 : ah / 2 < ah := Nat.div_lt_self hah one_lt_two
    have h2 : (v + 1) * ah ≤ (bg_height / ah) * ah :=
      Nat.mul_le_mul_right ah hv
    have h3 : (bg_height / ah) * ah ≤ bg_height := Nat.div_mul_le_self bg_height ah
    have h4 : (v + 1) * ah = v * ah + ah := by ring
    simp only []
    omega

end SyntheticData

namespace SyntheticData

theorem list_getD_of_lt {α : Type} (l : List α) {n : ℕ} (h : n < l.length) (d : α) :
    l.getD n d = l.get ⟨n, h⟩ := by
  simp [List.getD_eq_getElem?_getD, List.getElem?_eq_getElem h]

theorem perm_get_cons_eraseIdx {α : Type} [DecidableEq α] (l : List α) {n : ℕ}
    (h : n < l.length) : l.Perm (l.get ⟨n, h⟩ :: l.eraseIdx n) := by
  have h1 : l.Perm (l.get ⟨n, h⟩ :: l.erase (l.get ⟨n, h⟩)) :=
    List.perm_cons_erase (List.get_mem l n h)
  have h2 : (l.erase (l.get ⟨n, h⟩)).Perm (l.eraseIdx n) := by
    simpa [List.get_eq_getElem] using List.erase_getElem h
  exact h1.trans (h2.cons _)

theorem place_step_perm (bg_width bg_height : ℕ) (r : Raster) (rand : ℕ)
    (fail : Bool) (st : PlaceState) :
    ((place_step bg_width bg_height r rand fail st).placed
      ++ (place_step bg_width bg_height r rand fail st).matrix).Perm
      (st.placed ++ st.matrix) := by
  rw [place_step]
  by_cases hc : fail = true ∨ st.matrix = []
  · rw [if_pos hc]
  · rw [if_neg hc]
    have hne : st.matrix ≠ [] := fun he => hc (Or.inr he)
    have hlen : 0 < st.matrix.length := List.length_pos.2 hne
    have hlt : rand % st.matrix.length < st.matrix.length := Nat.mod_lt _ hlen
    simp only []
    rw [list_getD_of_lt st.matrix hlt]
    have he : (st.placed ++ [st.matrix.get ⟨rand % st.matrix.length, hlt⟩])
          ++ st.matrix.eraseIdx (rand % st.matrix.length)
        = st.placed ++ (st.matrix.get ⟨rand % st.matrix.length, hlt⟩
            :: st.matrix.eraseIdx (rand % st.matrix.length)) := by
      rw [List.append_assoc]
      rfl
    rw [he]
    exact List.Perm.append_left st.placed (perm_get_cons_eraseIdx st.matrix hlt).symm

theorem place_all_perm (bg_width bg_height : ℕ)
    (rasters : List (Raster × ℕ × Bool)) :
    ∀ st : PlaceState,
      ((place_all bg_width bg_height rasters st).placed
        ++ (place_all bg_width bg_height rasters st).matrix).Perm
        (st.placed ++ st.matrix) := by
  induction rasters with
  | nil => intro st; rfl
  | cons x rest IH =>
    intro st
    obtain ⟨r, rand, fail⟩ := x
    exact (IH (place_step bg_width bg_height r rand fail st)).trans
      (place_step_perm bg_width bg_height r rand fail st)

theorem place_all_placed_nodup (bg_width bg_height : ℕ)
    (rasters : List (Raster × ℕ × Bool)) (st : PlaceState)
    (hnd : (st.placed ++ st.matrix).Nodup) :
    (place_all bg_width bg_height rasters st).placed.Nodup := by
  have hp := place_all_perm bg_width bg_height rasters st
  have := (hp.nodup_iff).2 hnd
  exact this.of_append_left

end SyntheticData

namespace SyntheticData

theorem place_step_labels_in_range {bg_width bg_height : ℕ}
    (hbw : 0 < bg_width) (hbh : 0 < bg_height) (r : Raster) (rand : ℕ)
    (fail : Bool) {st : PlaceState}
    (hlab : ∀ lab ∈ st.labels, label_in_range lab)
    (hmat : ∀ c ∈ st.matrix, c.1 < bg_width ∧ c.2 < bg_height) :
    (∀ lab ∈ (place_step bg_width bg_height r rand fail st).labels, label_in_range lab)
    ∧ (∀ c ∈ (place_step bg_width bg_height r rand fail st).matrix,
        c.1 < bg_width ∧ c.2 < bg_height) := by
  rw [place_step]
  by_cases hc : fail = true ∨ st.matrix = []
  · rw [if_pos hc]
    exact ⟨hlab, hmat⟩
  · rw [if_neg hc]
    have hne : st.matrix ≠ [] := fun he => hc (Or.inr he)
    have hlen : 0 < st.matrix.length := List.length_pos.2 hne
    have hlt : rand % st.matrix.length < st.matrix.length := Nat.mod_lt _ hlen
    constructor
    · intro lab hmem
      simp only [create_label_file, List.mem_append, List.mem_singleton] at hmem
      rcases hmem with hold | heq
    
      · exact hlab lab hold
      · have hposmem : st.matrix.getD (rand % st.matrix.length) (0, 0) ∈ st.matrix := by
          rw [list_getD_of_lt st.matrix hlt]
          exact List.get_mem _ _ _
        have hb := hmat _ hposmem
        have hbwq : (0 : ℚ) < (bg_width : ℚ) := by exact_mod_cast hbw
        have hbhq : (0 : ℚ) < (bg_height : ℚ) := by exact_mod_cast hbh
        subst heq
        refine ⟨by positivity, ?_, by positivity, ?_, by positivity, by positivity⟩
        · rw [div_le_one hbwq]
          exact_mod_cast le_of_lt hb.1
        · rw [div_le_one hbhq]
          exact_mod_cast le_of_lt hb.2
    · intro c hc2
      exact hmat c (List.eraseIdx_subset _ _ hc2)

theorem place_all_labels_in_range {bg_width bg_height : ℕ}
    (hbw : 0 < bg_width) (hbh : 0 < bg_height)
    (rasters : List (Raster × ℕ × Bool)) :
    ∀ st : PlaceState, (∀ lab ∈ st.labels, label_in_range lab) →
      (∀ c ∈ st.matrix, c.1 < bg_width ∧ c.2 < bg_height) →
      ∀ lab ∈ (place_all bg_width bg_height rasters st).labels, label_in_range lab := by
  induction rasters with
  | nil => intro st h1 _ lab hm; exact h1 lab hm
  | cons x rest IH =>
    intro st h1 h2
    obtain ⟨r, rand, fail⟩ := x
    have hs := place_step_labels_in_range hbw hbh r rand fail h1 h2
    exact IH _ hs.1 hs.2

end SyntheticData

/-- C1 (amended): for every label line emitted during placement over a grid
built from positive averages, with background dimensions matching the image:
the x_center and y_center fields are in [0,1], and the width and height
fields are nonnegative — but width and height can exceed 1, since they are
half the raster's pixel width normalized by the background dimensions. -/
theorem C1_label_fields (bg_width bg_height aw ah : ℕ)
    (hbw : 0 < bg_width) (hbh : 0 < bg_height) (haw : 0 < aw) (hah : 0 < ah)
    (temp : List String) (rasters : List (SyntheticData.Raster × ℕ × Bool)) :
    ∀ lab ∈ (SyntheticData.place_all bg_width bg_height rasters
        (SyntheticData.init_state temp
          (SyntheticData.grid_positions bg_width bg_height aw ah))).labels,
      SyntheticData.label_in_range lab := by
  refine SyntheticData.place_all_labels_in_range hbw hbh rasters _ ?_ ?_
  · intro lab h
    simp [SyntheticData.init_state] at h
  · intro c hc
    exact SyntheticData.grid_positions_bounds haw hah hc

/-- Witness for C1 on a 100×100 background with a 77×77 grid footprint and one
300×300 raster. -/
theorem C1_label_fields_witness :
    0 < 100 ∧ 0 < 77
    ∧ ∀ lab ∈ (SyntheticData.place_all 100 100
        [(⟨SyntheticData.raster_filename 0, 300, 300⟩, 0, false)]
        (SyntheticData.init_state [SyntheticData.raster_filename 0]
          (SyntheticData.grid_positions 100 100 77 77))).labels,
      SyntheticData.label_in_range lab :=
  ⟨by decide, by decide,
    C1_label_fields 100 100 77 77 (by decide) (by decide) (by decide) (by decide)
      [SyntheticData.raster_filename 0]
      [(⟨SyntheticData.raster_filename 0, 300, 300⟩, 0, false)]⟩

/-- C4: the placement grid has exactly `grid_horisontal * grid_vertical`
distinct cells, with `grid_horisontal = bg_width / avg_width` and
`grid_vertical = bg_height / avg_height`, cell centers at
`(avg_width/2 + col*avg_width, avg_height/2 + row*avg_height)`, and during the
placement loop no cell is consumed by more than one placed object. -/
theorem C4_grid_cells (bg_width bg_height aw ah : ℕ) (haw : 0 < aw) (hah : 0 < ah)
    (temp : List String) (rasters : List (SyntheticData.Raster × ℕ × Bool)) :
    (SyntheticData.grid_positions bg_width bg_height aw ah).length
        = SyntheticData.grid_horisontal bg_width aw * SyntheticData.grid_vertical bg_height ah
      ∧ SyntheticData.grid_horisontal bg_width aw = bg_width / aw
      ∧ SyntheticData.grid_vertical bg_height ah = bg_height / ah
      ∧ (SyntheticData.grid_positions bg_width bg_height aw ah).Nodup
      ∧ (∀ p : ℕ × ℕ, p ∈ SyntheticData.grid_positions bg_width bg_height aw ah
          ↔ ∃ v < SyntheticData.grid_vertical bg_height ah,
              ∃ h < SyntheticData.grid_horisontal bg_width aw,
                p = (aw / 2 + h * aw, ah / 2 + v * ah))
      ∧ (SyntheticData.place_all bg_width bg_height rasters
          (SyntheticData.init_state temp
            (SyntheticData.grid_positions bg_width bg_height aw ah))).placed.Nodup := by
  refine ⟨SyntheticData.grid_positions_length bg_width bg_height aw ah,
    SyntheticData.grid_horisontal_eq bg_width aw,
    SyntheticData.grid_vertical_eq bg_height ah,
    SyntheticData.grid_positions_nodup bg_width bg_height haw hah,
    fun p => SyntheticData.mem_grid_positions, ?_⟩
  refine SyntheticData.place_all_placed_nodup bg_width bg_height rasters _ ?_
  simpa [SyntheticData.init_state]
    using SyntheticData.grid_positions_nodup bg_width bg_height haw hah

/-- Witness for C4 on a 100×100 background with a 77×77 footprint. -/
theorem C4_grid_cells_witness :
    0 < 77
    ∧ ((SyntheticData.grid_positions 100 100 77 77).length
        = SyntheticData.grid_horisontal 100 77 * SyntheticData.grid_vertical 100 77
      ∧ SyntheticData.grid_horisontal 100 77 = 100 / 77
      ∧ SyntheticData.grid_vertical 100 77 = 100 / 77
      ∧ (SyntheticData.grid_positions 100 100 77 77).Nodup
      ∧ (∀ p : ℕ × ℕ, p ∈ SyntheticData.grid_positions 100 100 77 77
          ↔ ∃ v < SyntheticData.grid_vertical 100 77,
              ∃ h < SyntheticData.grid_horisontal 100 77,
                p = (77 / 2 + h * 77, 77 / 2 + v * 77))
      ∧ (SyntheticData.place_all 100 100
          [(⟨SyntheticData.raster_filename 1, 10, 10⟩, 0, false)]
          (SyntheticData.init_state [SyntheticData.raster_filename 1]
            (SyntheticData.grid_positions 100 100 77 77))).placed.Nodup) :=
  ⟨by decide,
    C4_grid_cells 100 100 77 77 (by decide) (by decide)
      [SyntheticData.raster_filename 1]
      [(⟨SyntheticData.raster_filename 1, 10, 10⟩, 0, false)]⟩

/-- C8: in both the success branch and the exception branch of the compositing
loop the temporary raster file is removed from the temp folder; in the
exception branch an error is logged and the labels and position matrix are
left unchanged; and the loop always continues with the remaining rasters. -/
theorem C8_temp_cleanup (bg_width bg_height : ℕ) (r : SyntheticData.Raster)
    (rand : ℕ) (fail : Bool) (st : SyntheticData.PlaceState)
    (rest : List (SyntheticData.Raster × ℕ × Bool)) :
    (SyntheticData.place_step bg_width bg_height r rand fail st).temp
        = st.temp.erase r.name
      ∧ (SyntheticData.place_step bg_width bg_height r rand true st).errors
        = st.errors + 1
      ∧ (SyntheticData.place_step bg_width bg_height r rand true st).labels = st.labels
      ∧ (SyntheticData.place_step bg_width bg_height r rand true st).matrix = st.matrix
      ∧ SyntheticData.place_all bg_width bg_height ((r, rand, fail) :: rest) st
        = SyntheticData.place_all bg_width bg_height rest
            (SyntheticData.place_step bg_width bg_height r rand fail st) := by
  refine ⟨?_, ?_, ?_, ?_, rfl⟩
  · rw [SyntheticData.place_step]
    by_cases hc : fail = true ∨ st.matrix = []
    · rw [if_pos hc]
    · rw [if_neg hc]
  · rw [SyntheticData.place_step, if_pos (Or.inl rfl)]
  · rw [SyntheticData.place_step, if_pos (Or.inl rfl)]
  · rw [SyntheticData.place_step, if_pos (Or.inl rfl)]

/-- C5 (amended): `avg_width` and `avg_height` are the sums of the scaled
raster dimensions of the successfully rendered meshes divided by twice the
total number of STL files — the divisor `j + 1` is the final loop index plus
one, which counts every STL file including those whose rendering raised an
exception. -/
theorem C5_average_footprint (outcomes : List (Option (ℕ × ℕ)))
    (_hne : outcomes ≠ []) :
    SyntheticData.avg_width outcomes
        = (SyntheticData.render_sums outcomes).1 / (2 * outcomes.length)
      ∧ SyntheticData.avg_height outcomes
        = (SyntheticData.render_sums outcomes).2 / (2 * outcomes.length) :=
  ⟨SyntheticData.avg_width_eq outcomes, SyntheticData.avg_height_eq outcomes⟩

/-- Witness for C5 with one successful 4×4 render and one failed render. -/
theorem C5_average_footprint_witness :
    ([some (4, 4), none] : List (Option (ℕ × ℕ))) ≠ []
      ∧ SyntheticData.avg_width [some (4, 4), none]
          = (SyntheticData.render_sums [some (4, 4), none]).1
            / (2 * ([some (4, 4), none] : List (Option (ℕ × ℕ))).length)
      ∧ SyntheticData.avg_height [some (4, 4), none]
          = (SyntheticData.render_sums [some (4, 4), none]).2
            / (2 * ([some (4, 4), none] : List (Option (ℕ × ℕ))).length) := by
  refine ⟨by decide, ?_⟩
  have h := C5_average_footprint [some (4, 4), none] (by decide)
  exact h

/-- C5 counterexample: with one successful 4×4 render and one failed render,
the code computes `avg_width = int(4 / 2 / 2) = 1`, while the average over
only the successfully rendered meshes would be `int(4 / 1 / 2) = 2`. -/
theorem C5_average_footprint_counterexample :
    SyntheticData.avg_width [some (4, 4), none] = 1
      ∧ SyntheticData.avg_width_spec [some (4, 4), none] = 2
      ∧ SyntheticData.avg_width [some (4, 4), none]
          ≠ SyntheticData.avg_width_spec [some (4, 4), none] := by
  have h := SyntheticData.avg_width_eq [some (4, 4), none]
  refine ⟨?_, by decide, ?_⟩
  · rw [h]
    decide
  · rw [h]
    decide

/-- C6 counterexample: the raster rendered from the mesh at index 0 is the
temp file "0.png", so the class identifier written to the label file is "0";
for a mesh file named "sun_c.stl" the base name with extension stripped is
"sun_c", which differs. -/
theorem C6_class_id_counterexample :
    SyntheticData.class_id_of (SyntheticData.raster_filename 0) = "0"
      ∧ SyntheticData.file_stem "sun_c.stl" = "sun_c"
      ∧ SyntheticData.class_id_of (SyntheticData.raster_filename 0)
          ≠ SyntheticData.file_stem "sun_c.stl" := by
  refine ⟨by decide, by decide, by decide⟩

/-- C6 (amended): the class identifier written as the first field of a placed
object's label equals the temp raster's file name with ".png" stripped, which
is the originating mesh's index in the mesh list as a decimal string (checked
here for indices 0..9), not the mesh file's base name. -/
theorem C6_class_id (bg_width bg_height : ℕ) (r : SyntheticData.Raster)
    (rand : ℕ) (st : SyntheticData.PlaceState) (hm : st.matrix ≠ []) :
    ((SyntheticData.place_step bg_width bg_height r rand false st).labels.map
          SyntheticData.LabelLine.class_id
        = st.labels.map SyntheticData.LabelLine.class_id
          ++ [SyntheticData.class_id_of r.name])
      ∧ ∀ j : Fin 10, SyntheticData.class_id_of (SyntheticData.raster_filename (j : ℕ))
          = toString (j : ℕ) := by
  constructor
  · rw [SyntheticData.place_step, if_neg (by simp [hm])]
    simp [SyntheticData.create_label_file]
  · decide

/-- Witness for C6 at a concrete placement state with one free cell. -/
theorem C6_class_id_witness :
    ((SyntheticData.init_state [SyntheticData.raster_filename 0] [(38, 38)]).matrix ≠ [])
      ∧ (((SyntheticData.place_step 100 100 ⟨SyntheticData.raster_filename 0, 300, 300⟩ 0 false
            (SyntheticData.init_state [SyntheticData.raster_filename 0] [(38, 38)])).labels.map
            SyntheticData.LabelLine.class_id
          = (SyntheticData.init_state [SyntheticData.raster_filename 0] [(38, 38)]).labels.map
              SyntheticData.LabelLine.class_id
            ++ [SyntheticData.class_id_of
                  (⟨SyntheticData.raster_filename 0, 300, 300⟩ : SyntheticData.Raster).name])
        ∧ ∀ j : Fin 10, SyntheticData.class_id_of (SyntheticData.raster_filename (j : ℕ))
            = toString (j : ℕ)) :=
  ⟨by decide,
    C6_class_id 100 100 ⟨SyntheticData.raster_filename 0, 300, 300⟩ 0
      (SyntheticData.init_state [SyntheticData.raster_filename 0] [(38, 38)]) (by decide)⟩

/-- C1 counterexample: on a 100×100 background, with rendered footprints
300×300 and 10×10 (both renders successful), the averages are 77×77, the grid
has the single cell (38,38), and placing the 300×300 raster there emits the
label line with width and height fields 3/2 — outside [0,1]. -/
theorem C1_label_fields_counterexample :
    ¬ (∀ lab ∈ (SyntheticData.place_all 100 100
          [(⟨SyntheticData.raster_filename 0, 300, 300⟩, 0, false)]
          (SyntheticData.init_state [SyntheticData.raster_filename 0]
            (SyntheticData.grid_positions 100 100
              (SyntheticData.avg_width [some (300, 300), some (10, 10)])
              (SyntheticData.avg_height [some (300, 300), some (10, 10)])))).labels,
        0 ≤ lab.x_center ∧ lab.x_center ≤ 1 ∧ 0 ≤ lab.y_center ∧ lab.y_center ≤ 1
          ∧ 0 ≤ lab.width ∧ lab.width ≤ 1 ∧ 0 ≤ lab.height ∧ lab.height ≤ 1) := by
  intro hall
  have ha : SyntheticData.avg_width [some (300, 300), some (10, 10)] = 77 := by
    rw [SyntheticData.avg_width_eq]
    decide
  have hh : SyntheticData.avg_height [some (300, 300), some (10, 10)] = 77 := by
    rw [SyntheticData.avg_height_eq]
    decide
  rw [ha, hh] at hall
  have hg : SyntheticData.grid_positions 100 100 77 77 = [(38, 38)] := by
    rw [SyntheticData.grid_positions, SyntheticData.grid_horisontal_eq,
      SyntheticData.grid_vertical_eq]
    decide
  rw [hg] at hall
  have hmem : (⟨SyntheticData.class_id_of (SyntheticData.raster_filename 0),
        (38 : ℚ)/100, (38 : ℚ)/100, (3 : ℚ)/2, (3 : ℚ)/2⟩ : SyntheticData.LabelLine)
      ∈ (SyntheticData.place_all 100 100
          [(⟨SyntheticData.raster_filename 0, 300, 300⟩, 0, false)]
          (SyntheticData.init_state [SyntheticData.raster_filename 0] [(38, 38)])).labels := by
    show _ ∈ (SyntheticData.place_step 100 100 ⟨SyntheticData.raster_filename 0, 300, 300⟩ 0 false
        (SyntheticData.init_state [SyntheticData.raster_filename 0] [(38, 38)])).labels
    rw [SyntheticData.place_step, if_neg (by decide)]
    simp only [SyntheticData.create_label_file, SyntheticData.init_state,
      List.nil_append, List.mem_singleton, SyntheticData.LabelLine.mk.injEq,
      Nat.zero_mod, List.getD_cons_zero]
    norm_num
  have hw := (hall _ hmem).2.2.2.2.2.1
  norm_num at hw
